import Mathlib

/-
Verification of the annotation-consensus and evaluation pipeline of the
mica-screenplay-parser repository (src/training/evaluation_simple.py).
The Python function evaluate is embedded component by component: the
Annotation Decoder (per-row decoding loop), the Consensus Builder
(majority-vote loop), the Agreement Engine (contingency-table loop), the
System-Output Aligner (normalize-and-slice loop), and the Scorer
(accuracy and precision/recall/F1 loops). Machine reals used for the
percentage arithmetic are modelled as rationals; a Python division that
raises ZeroDivisionError is modelled as an Option that is none.
-/

namespace ScreenplayEval

/-- The seven category codes of the taxonomy, in the order of the list
literal used for contingency-table column indexing in the code. -/
def categories : List String := ["S", "N", "C", "D", "E", "T", "O"]

/-- The six structural tags, in the order the decoding loop visits them. -/
def structuralTags : List String := ["S", "N", "C", "D", "E", "T"]

/-- One row of an annotator sheet: the free-text line cell and one cell per
structural tag. A cell holding a non-string value (for example the NaN that
pandas yields for an empty cell) is modelled as none. -/
structure AnnotatorRow where
  line : Option String
  S : Option String
  N : Option String
  C : Option String
  D : Option String
  E : Option String
  T : Option String

/-- The six (tag name, tag cell) pairs of a row, in loop order, mirroring
row[tag] for tag in the structural-tag list. -/
def taggedFields (r : AnnotatorRow) : List (String × Option String) :=
  [("S", r.S), ("N", r.N), ("C", r.C), ("D", r.D), ("E", r.E), ("T", r.T)]

/-- The strip method of Python strings: leading and trailing whitespace
removed. Written with structurally recursive list operations so that it
evaluates on concrete strings. -/
def strip (s : String) : String :=
  ⟨((s.data.dropWhile Char.isWhitespace).reverse.dropWhile Char.isWhitespace).reverse⟩

/-- isinstance(row[tag], str) and row[line].strip() == row[tag].strip(). -/
def fieldMatches (l : String) (f : Option String) : Bool :=
  match f with
  | some s => strip l == strip s
  | none => false

/-- The per-row decoding loop of the code: a non-string or all-whitespace
line cell gives the catch-all tag; otherwise the loop remembers the last
matching tag in atag and counts non-matching fields in n, and the row
decodes to atag exactly when atag is nonempty and n equals 5. -/
def decodeRow (r : AnnotatorRow) : String :=
  match r.line with
  | none => "O"
  | some l =>
    if strip l = "" then "O"
    else
      let res := (taggedFields r).foldl
        (fun acc tf => if fieldMatches l tf.2 then (tf.1, acc.2) else (acc.1, acc.2 + 1))
        ("", 0)
      if res.1 ≠ "" ∧ res.2 = 5 then res.1 else "O"

/-- The decoding rule as the specification words it: a blank or non-text
line decodes to the catch-all tag; otherwise the row decodes to the unique
matching structural tag when exactly one field matches, and to the
catch-all tag when zero or several fields match. -/
def decodeSpecRow (r : AnnotatorRow) : String :=
  match r.line with
  | none => "O"
  | some l =>
    if strip l = "" then "O"
    else
      match (taggedFields r).filter (fun tf => fieldMatches l tf.2) with
      | [tf] => tf.1
      | _ => "O"

/-- The majority-vote rule of the consensus loop. -/
def consensus (a1 a2 a3 : String) : String :=
  if a1 = a2 ∨ a1 = a3 then a1
  else if a2 = a3 then a2
  else "O"

/-- Simultaneous traversal of the three decoded sequences, mirroring how
zip of three lists stops at the shortest sequence. -/
def zip3 {α β γ : Type} : List α → List β → List γ → List (α × β × γ)
  | a :: as, b :: bs, c :: cs => (a, b, c) :: zip3 as bs cs
  | _, _, _ => []

/-- len(set([a1, a2, a3])): how many distinct tags the three annotators
gave one line. -/
def distinctCount (a1 a2 a3 : String) : Nat := ([a1, a2, a3].dedup).length

/-- Number of lines of a movie on which all three annotators agree. -/
def fullAgreeCount (x y z : List String) : Nat :=
  (zip3 x y z).countP (fun t => distinctCount t.1 t.2.1 t.2.2 == 1)

/-- The per-movie agreement percentage 100 * n1 / n of the code; none
models the ZeroDivisionError raised when the movie has zero lines. -/
def agreePercent (x y z : List String) : Option ℚ :=
  if (zip3 x y z).length = 0 then none
  else some (100 * (fullAgreeCount x y z : ℚ) / ((zip3 x y z).length : ℚ))

/-- Contribution of one line to the agreeing-rater-pairs counter: 3 under
full agreement, 1 when exactly two annotators agree, 0 otherwise. -/
def agreePairsLine (a1 a2 a3 : String) : Nat :=
  if distinctCount a1 a2 a3 = 1 then 3
  else if distinctCount a1 a2 a3 = 2 then 1
  else 0

/-- Corpus-wide agreeing-rater-pairs counter. -/
def corpusAgreePairs (data : List (List String × List String × List String)) : Nat :=
  (data.map (fun m =>
    ((zip3 m.1 m.2.1 m.2.2).map (fun t => agreePairsLine t.1 t.2.1 t.2.2)).sum)).sum

/-- Corpus-wide total-rater-pairs counter: 3 per processed line. -/
def corpusTotalPairs (data : List (List String × List String × List String)) : Nat :=
  (data.map (fun m => 3 * (zip3 m.1 m.2.1 m.2.2).length)).sum

/-- The corpus-wide pairwise agreement percentage; none models the
ZeroDivisionError raised when no line is processed at all. -/
def corpusPairPercent (data : List (List String × List String × List String)) : Option ℚ :=
  if corpusTotalPairs data = 0 then none
  else some (100 * (corpusAgreePairs data : ℚ) / (corpusTotalPairs data : ℚ))

/-- item_x_class_table[i, j] += 1 for the column j of one tag: none models
the ValueError raised by list index lookup when the tag is outside the
taxonomy. -/
def bump (row : List Nat) (a : String) : Option (List Nat) :=
  match categories.indexOf? a with
  | some j => some (row.set j (row.getD j 0 + 1))
  | none => none

/-- The three increments a processed line applies to its item row of the
contingency table, starting from a zero row. -/
def voteRow (a1 a2 a3 : String) : Option (List Nat) := do
  let r1 ← bump (List.replicate 7 0) a1
  let r2 ← bump r1 a2
  bump r2 a3

/-- The item rows one movie contributes to the contingency table, one row
per line of zip of the three decoded sequences. -/
def movieRows : List String → List String → List String → Option (List (List Nat))
  | a :: as, b :: bs, c :: cs => do
      let r ← voteRow a b c
      let rest ← movieRows as bs cs
      some (r :: rest)
  | _, _, _ => some []

/-- The item rows of the whole corpus, movie by movie in corpus order. -/
def corpusRows : List (List String × List String × List String) →
    Option (List (List (List Nat)))
  | [] => some []
  | m :: rest => do
      let rows ← movieRows m.1 m.2.1 m.2.2
      let others ← corpusRows rest
      some (rows :: others)

/-- The full contingency table: the numpy zero matrix has one row per row
of annotator 1 across all movies, the row index advances once per processed
line, so the rows the agreement loops fill are followed by the zero rows
the loops never touched. -/
def itemTable (data : List (List String × List String × List String)) :
    Option (List (List Nat)) := do
  let rowsPerMovie ← corpusRows data
  let processed := rowsPerMovie.flatten
  some (processed ++
    List.replicate ((data.map (fun m => m.1.length)).sum - processed.length)
      (List.replicate 7 0))

/-- The per-movie accuracy computation of the code: the number of agreeing
positions of zip(consensus, system) divided by the length of the consensus
sequence, times 100; none models the ZeroDivisionError raised on an empty
consensus sequence. -/
def accuracy (maj sys : List String) : Option ℚ :=
  if maj.length = 0 then none
  else some (100 * ((maj.zip sys).countP (fun p => p.1 == p.2) : ℚ) / (maj.length : ℚ))

/-- Normalization of one raw tagger token: a token outside the six
structural tags becomes the catch-all tag. -/
def normalizeTag (t : String) : String :=
  if t ∈ structuralTags then t else "O"

/-- The System-Output Aligner: normalize every token of the raw tag file,
then slice out tokens[i:j]. -/
def alignSystem (tags : List String) (i j : Nat) : List String :=
  ((tags.map normalizeTag).drop i).take (j - i)

/-- sum(x == y == tag for x, y in zip(consensus, system)). -/
def tpCount (t : String) (maj sys : List String) : Nat :=
  (maj.zip sys).countP (fun p => p.1 == p.2 && p.2 == t)

/-- sum(x != y == tag for x, y in zip(consensus, system)). -/
def fpCount (t : String) (maj sys : List String) : Nat :=
  (maj.zip sys).countP (fun p => !(p.1 == p.2) && p.2 == t)

/-- sum(tag == x != y for x, y in zip(consensus, system)). -/
def fnCount (t : String) (maj sys : List String) : Nat :=
  (maj.zip sys).countP (fun p => t == p.1 && !(p.1 == p.2))

/-- True positives of one tag accumulated over all movies. -/
def corpusTP (t : String) (data : List (List String × List String)) : Nat :=
  (data.map (fun m => tpCount t m.1 m.2)).sum

/-- False positives of one tag accumulated over all movies. -/
def corpusFP (t : String) (data : List (List String × List String)) : Nat :=
  (data.map (fun m => fpCount t m.1 m.2)).sum

/-- False negatives of one tag accumulated over all movies. -/
def corpusFN (t : String) (data : List (List String × List String)) : Nat :=
  (data.map (fun m => fnCount t m.1 m.2)).sum

/-- Division as the code performs it: none models the ZeroDivisionError
raised on a zero divisor. -/
def qdiv (a b : ℚ) : Option ℚ :=
  if b = 0 then none else some (a / b)

/-- The three divisions of the scorer for one tag, in code order: precision
tp/(tp+fp), recall tp/(tp+fn), then f1 = 2*p*r/(p+r). -/
def scoreCounts (tp fp fn : Nat) : Option (ℚ × ℚ × ℚ) := do
  let p ← qdiv (tp : ℚ) ((tp : ℚ) + (fp : ℚ))
  let r ← qdiv (tp : ℚ) ((tp : ℚ) + (fn : ℚ))
  let f1 ← qdiv (2 * p * r) (p + r)
  some (p, r, f1)

/-- Corpus-wide precision, recall and F1 of one tag from the per-movie
consensus and system sequences. -/
def scoreTag (t : String) (data : List (List String × List String)) :
    Option (ℚ × ℚ × ℚ) :=
  scoreCounts (corpusTP t data) (corpusFP t data) (corpusFN t data)

/-- movies = list(annotator_1_df_dict.keys())[1:]: the sheet names of the
workbooks of annotators 2 and 3 are in scope but unused. -/
def evaluatedMovies (keys1 keys2 keys3 : List String) : List String :=
  keys1.drop 1

end ScreenplayEval

namespace ScreenplayEval

/-- C1: the consensus tag computed by the Consensus Builder is always a tag
held by at least two of the three annotators, and is the catch-all tag when
no tag is held by two or more; the three example triples of the
specification evaluate as stated. -/
theorem consensus_is_majority :
    (∀ a1 a2 a3 : String,
      2 ≤ List.count (consensus a1 a2 a3) [a1, a2, a3] ∨
        (consensus a1 a2 a3 = "O" ∧ ∀ t : String, List.count t [a1, a2, a3] ≤ 1)) ∧
    consensus "S" "S" "N" = "S" ∧
    consensus "S" "N" "C" = "O" ∧
    consensus "O" "S" "S" = "S" := by
  refine ⟨?_, by decide, by decide, by decide⟩
  intro a1 a2 a3
  unfold consensus
  by_cases h12 : a1 = a2
  · left
    simp [h12, List.count_cons]
  · by_cases h13 : a1 = a3
    · left
      simp [h13, List.count_cons]
    · by_cases h23 : a2 = a3
      · left
        simp [h12, h13, h23, List.count_cons]
      · right
        refine ⟨by simp [h12, h13, h23], ?_⟩
        intro t
        by_cases t1 : t = a1 <;> by_cases t2 : t = a2 <;> by_cases t3 : t = a3 <;>
          simp_all [List.count_cons]

/-- C1 witness: the majority property instantiated on a concrete triple. -/
theorem consensus_is_majority_inst :
    2 ≤ List.count (consensus "S" "S" "N") ["S", "S", "N"] ∨
      (consensus "S" "S" "N" = "O" ∧ ∀ t : String, List.count t ["S", "S", "N"] ≤ 1) :=
  consensus_is_majority.1 "S" "S" "N"

/-- C2: the per-row decoding loop agrees with the specification rule on
every row: a non-text or all-whitespace line cell decodes to the catch-all
tag, a row with exactly one matching structural-tag field decodes to that
tag, and a row with zero or several matching fields decodes to the
catch-all tag; in particular the ambiguous row whose line INT. HOUSE is
repeated in both the first and the second tag field decodes to the
catch-all tag. -/
theorem decodeRow_eq_spec :
    (∀ r : AnnotatorRow, decodeRow r = decodeSpecRow r) ∧
    decodeRow ⟨some "INT. HOUSE", some "INT. HOUSE", some "INT. HOUSE",
      none, none, none, none⟩ = "O" := by
  constructor
  · intro r
    obtain ⟨ln, fS, fN, fC, fD, fE, fT⟩ := r
    cases ln with
    | none => rfl
    | some l =>
      by_cases hl : strip l = ""
      · simp [decodeRow, decodeSpecRow, hl]
      · by_cases h1 : fieldMatches l fS <;> by_cases h2 : fieldMatches l fN <;>
          by_cases h3 : fieldMatches l fC <;> by_cases h4 : fieldMatches l fD <;>
          by_cases h5 : fieldMatches l fE <;> by_cases h6 : fieldMatches l fT <;>
          simp [decodeRow, decodeSpecRow, taggedFields, hl, h1, h2, h3, h4, h5, h6]
  · decide

/-- C2 witness: the decoder equivalence instantiated on a concrete blank
row. -/
theorem decodeRow_eq_spec_inst :
    decodeRow ⟨none, none, none, none, none, none, none⟩ =
      decodeSpecRow ⟨none, none, none, none, none, none, none⟩ :=
  decodeRow_eq_spec.1 ⟨none, none, none, none, none, none, none⟩

/-- Zipping against a list truncated to the length of the first list gives
the same pairs as zipping against the full list. -/
theorem zip_take_length {α β : Type} (l1 : List α) (l2 : List β) :
    l1.zip (l2.take l1.length) = l1.zip l2 := by
  induction l1 generalizing l2 with
  | nil => simp
  | cons a as ih =>
    cases l2 with
    | nil => simp
    | cons b bs => simp [List.zip_cons_cons, ih]

/-- C3 counterexample: on a movie whose consensus sequence has two lines
while the system sequence has one, the accuracy computation returns a value
rather than failing: the claimed fatal length-mismatch error does not
exist in the code. -/
theorem accuracy_mismatch_cex :
    (["S", "S"] : List String).length ≠ (["S"] : List String).length ∧
    accuracy ["S", "S"] ["S"] = some 50 := by
  constructor
  · decide
  · simp [accuracy]
    norm_num

/-- C3 amended: when the consensus and system sequences differ in length the
accuracy loop raises no error: the agreement count is taken over the zip of
the two sequences, so system tags beyond the consensus length never change
the result, and the computation succeeds whenever the consensus sequence is
nonempty, dividing by the consensus-sequence length. -/
theorem accuracy_truncates :
    ∀ maj sys : List String,
      accuracy maj sys = accuracy maj (sys.take maj.length) ∧
      (maj ≠ [] → (accuracy maj sys).isSome = true) := by
  intro maj sys
  constructor
  · unfold accuracy
    rw [zip_take_length]
  · intro h
    simp [accuracy, List.length_eq_zero, h]

/-- C3 amended witness: accuracy is defined on a concrete mismatched pair. -/
theorem accuracy_truncates_inst : (accuracy ["S"] ["N", "N"]).isSome = true :=
  (accuracy_truncates ["S"] ["N", "N"]).2 (by decide)

/-- For taxonomy tags the three per-line increments succeed and produce an
item row of sum 3. -/
theorem voteRow_sum_three :
    ∀ a ∈ categories, ∀ b ∈ categories, ∀ c ∈ categories,
      (voteRow a b c).map List.sum = some 3 := by decide

/-- The item rows of one movie: one row per line when the three decoded
sequences have equal length, every row summing to 3. -/
theorem movieRows_ok :
    ∀ x y z : List String, y.length = x.length → z.length = x.length →
      (∀ a ∈ x, a ∈ categories) → (∀ a ∈ y, a ∈ categories) →
      (∀ a ∈ z, a ∈ categories) →
      ∃ rows, movieRows x y z = some rows ∧ rows.length = x.length ∧
        ∀ r ∈ rows, r.sum = 3 := by
  intro x
  induction x with
  | nil =>
    intro y z hy hz _ _ _
    obtain rfl : y = [] := List.length_eq_zero.mp (by simpa using hy)
    obtain rfl : z = [] := List.length_eq_zero.mp (by simpa using hz)
    exact ⟨[], rfl, rfl, by simp⟩
  | cons a as ih =>
    intro y z hy hz hx hy2 hz2
    cases y with
    | nil => simp at hy
    | cons b bs =>
      cases z with
      | nil => simp at hz
      | cons c cs =>
        have hvote := voteRow_sum_three a (hx a (by simp)) b (hy2 b (by simp))
          c (hz2 c (by simp))
        obtain ⟨r, hr, hrsum⟩ := Option.map_eq_some'.mp hvote
        obtain ⟨rest, hrest, hlen, hall⟩ := ih bs cs (by simpa using hy)
          (by simpa using hz) (fun u hu => hx u (by simp [hu]))
          (fun u hu => hy2 u (by simp [hu])) (fun u hu => hz2 u (by simp [hu]))
        refine ⟨r :: rest, ?_, by simp [hlen], ?_⟩
        · simp [movieRows, hr, hrest]
        · intro q hq
          rcases List.mem_cons.mp hq with h | h
          · exact h ▸ hrsum
          · exact hall q h

/-- Collecting the item rows of the whole corpus: under equal per-movie
lengths the processed rows exactly fill the preallocated table and each
sums to 3. -/
theorem corpusRows_ok :
    ∀ data : List (List String × List String × List String),
      (∀ m ∈ data, m.2.1.length = m.1.length ∧ m.2.2.length = m.1.length ∧
        (∀ a ∈ m.1, a ∈ categories) ∧ (∀ a ∈ m.2.1, a ∈ categories) ∧
        (∀ a ∈ m.2.2, a ∈ categories)) →
      ∃ rws, corpusRows data = some rws ∧
        rws.flatten.length = (data.map (fun m => m.1.length)).sum ∧
        ∀ r ∈ rws.flatten, r.sum = 3 := by
  intro data
  induction data with
  | nil => exact fun _ => ⟨[], rfl, by simp, by simp⟩
  | cons m rest ih =>
    intro h
    obtain ⟨h1, h2, h3, h4, h5⟩ := h m (by simp)
    obtain ⟨rows, hrows, hlen, hsum⟩ := movieRows_ok m.1 m.2.1 m.2.2 h1 h2 h3 h4 h5
    obtain ⟨rws, hrws, hjlen, hjsum⟩ := ih (fun q hq => h q (by simp [hq]))
    refine ⟨rows :: rws, ?_, ?_, ?_⟩
    · simp [corpusRows, hrows, hrws]
    · simp [hlen, hjlen]
    · intro r hr
      rw [List.flatten_cons] at hr
      rcases List.mem_append.mp hr with h | h
      · exact hsum r h
      · exact hjsum r h

/-- C4 counterexample: with one movie whose first annotator sheet has two
rows while the other two annotators have one, the contingency table has a
zero row, so not every row sums to 3. -/
theorem itemTable_cex :
    ¬ ∀ row ∈ (itemTable [(["S", "S"], ["S"], ["S"])]).getD [], row.sum = 3 := by
  decide

/-- C4 amended: whenever for every movie the three decoded sequences have
the length of the first annotator sheet and carry taxonomy tags only, the
agreement loops fill every preallocated row of the contingency table and
every row sums to exactly 3, one vote per annotator per line. -/
theorem itemTable_rows_sum_three :
    ∀ data : List (List String × List String × List String),
      (∀ m ∈ data, m.2.1.length = m.1.length ∧ m.2.2.length = m.1.length ∧
        (∀ a ∈ m.1, a ∈ categories) ∧ (∀ a ∈ m.2.1, a ∈ categories) ∧
        (∀ a ∈ m.2.2, a ∈ categories)) →
      ∃ tbl, itemTable data = some tbl ∧ ∀ row ∈ tbl, row.sum = 3 := by
  intro data h
  obtain ⟨rws, hrws, hjlen, hjsum⟩ := corpusRows_ok data h
  refine ⟨rws.flatten, ?_, hjsum⟩
  rw [List.length_flatten] at hjlen
  simp [itemTable, hrws, hjlen]

/-- C4 amended witness: the table of a concrete one-movie corpus. -/
theorem itemTable_rows_sum_three_inst :
    ∃ tbl, itemTable [(["S", "N"], ["S", "S"], ["O", "N"])] = some tbl ∧
      ∀ row ∈ tbl, row.sum = 3 :=
  itemTable_rows_sum_three [(["S", "N"], ["S", "S"], ["O", "N"])] (by decide)

/-- C5: a position of the zipped consensus and system sequences is a true
positive of a tag exactly when both sequences carry the tag there, a false
positive exactly when the sequences disagree and the system carries the
tag, a false negative exactly when the consensus carries the tag and the
system does not; on the three-line example of the specification the scorer
reports precision, recall and F1 all equal to one half for the first tag. -/
theorem scorer_counts_correct :
    (∀ (t : String) (maj sys : List String),
      tpCount t maj sys = (maj.zip sys).countP (fun p => p.1 == t && p.2 == t) ∧
      fpCount t maj sys = (maj.zip sys).countP (fun p => !(p.1 == p.2) && p.2 == t) ∧
      fnCount t maj sys = (maj.zip sys).countP (fun p => p.1 == t && !(p.2 == t))) ∧
    scoreTag "S" [(["S", "S", "N"], ["S", "N", "S"])] = some (1/2, 1/2, 1/2) := by
  constructor
  · intro t maj sys
    refine ⟨List.countP_congr ?_, rfl, List.countP_congr ?_⟩
    · rintro ⟨x, y⟩ _
      simp only [Bool.and_eq_true, beq_iff_eq]
      constructor
      · rintro ⟨h1, h2⟩
        exact ⟨h1.trans h2, h2⟩
      · rintro ⟨h1, h2⟩
        exact ⟨h1.trans h2.symm, h2⟩
    · rintro ⟨x, y⟩ _
      simp only [Bool.and_eq_true, Bool.not_eq_true', beq_iff_eq, beq_eq_false_iff_ne]
      constructor
      · rintro ⟨rfl, h2⟩
        exact ⟨rfl, fun hy => h2 hy.symm⟩
      · rintro ⟨rfl, h2⟩
        exact ⟨rfl, fun hy => h2 hy.symm⟩
  · simp [scoreTag, scoreCounts, corpusTP, corpusFP, corpusFN,
      tpCount, fpCount, fnCount, qdiv]
    norm_num

/-- C5 witness: the count characterizations instantiated on a concrete
pair of sequences. -/
theorem scorer_counts_correct_inst :
    tpCount "S" ["S"] ["S"] =
      ((["S"] : List String).zip ["S"]).countP (fun p => p.1 == "S" && p.2 == "S") :=
  (scorer_counts_correct.1 "S" ["S"] ["S"]).1

/-- When the scorer reaches a tag with zero true positives, one of its
three divisions has a zero divisor, so the computation for that tag fails
rather than producing numbers. -/
theorem scoreCounts_tp_zero (fp fn : Nat) : scoreCounts 0 fp fn = none := by
  by_cases hfp : (fp : ℚ) = 0 <;> by_cases hfn : (fn : ℚ) = 0 <;>
    simp [scoreCounts, qdiv, hfp, hfn]

/-- C6: every degenerate division of the pipeline is surfaced rather than
silently reported as a number: a movie with zero processed lines makes the
per-movie agreement percentage fail, a corpus with zero processed lines
makes the corpus pair-agreement percentage fail, and a tag with zero true
positives (which covers zero predicted positives and zero consensus
positives) makes the scorer fail for that tag; none of these is ever
reported as zero or one hundred percent. -/
theorem degenerate_division_not_silent :
    (∀ x y z : List String, (zip3 x y z).length = 0 → agreePercent x y z = none) ∧
    (∀ data : List (List String × List String × List String),
      corpusTotalPairs data = 0 → corpusPairPercent data = none) ∧
    (∀ (t : String) (data : List (List String × List String)),
      corpusTP t data = 0 → scoreTag t data = none) := by
  refine ⟨?_, ?_, ?_⟩
  · intro x y z h
    simp [agreePercent, h]
  · intro data h
    simp [corpusPairPercent, h]
  · intro t data h
    simp only [scoreTag, h]
    exact scoreCounts_tp_zero _ _

/-- C6 witness: the degenerate cases on concrete empty inputs. -/
theorem degenerate_division_not_silent_inst :
    agreePercent [] [] [] = none ∧ scoreTag "S" [] = none :=
  ⟨degenerate_division_not_silent.1 [] [] [] rfl,
   degenerate_division_not_silent.2.2 "S" [] rfl⟩

/-- C7: the System-Output Aligner returns exactly the normalized token list
sliced to the window: every returned token is one of the seven taxonomy
codes, and the token at offset k of the window is the normalization of raw
token i + k. -/
theorem alignSystem_normalizes_and_slices :
    ∀ (tags : List String) (i j : Nat),
      (∀ t ∈ alignSystem tags i j, t ∈ categories) ∧
      (∀ k : Nat, k < j - i →
        (alignSystem tags i j)[k]? = (tags[i + k]?).map normalizeTag) := by
  intro tags i j
  constructor
  · intro t ht
    unfold alignSystem at ht
    have ht2 := List.mem_of_mem_drop (List.mem_of_mem_take ht)
    obtain ⟨x, _, rfl⟩ := List.mem_map.mp ht2
    have hsub : ∀ u ∈ structuralTags, u ∈ categories := by decide
    have hO : ("O" : String) ∈ categories := by decide
    unfold normalizeTag
    split
    · next hmem => exact hsub x hmem
    · next _ => exact hO
  · intro k hk
    unfold alignSystem
    rw [List.getElem?_take]
    simp [hk, List.getElem?_drop, List.getElem?_map]

/-- C7 witness: the pointwise description on a concrete out-of-taxonomy
token. -/
theorem alignSystem_normalizes_and_slices_inst :
    (alignSystem ["x"] 0 1)[0]? = ((["x"] : List String)[0 + 0]?).map normalizeTag :=
  (alignSystem_normalizes_and_slices ["x"] 0 1).2 0 (by decide)

/-- C8 counterexample: the window (0, 3) violates the contract on a raw
tag file of one token, yet the aligner returns the clamped one-token slice
instead of failing: the claimed fatal configuration error does not exist
in the code. -/
theorem alignSystem_overrun_cex :
    ¬ (3 ≤ (["S"] : List String).length) ∧ alignSystem ["S"] 0 3 = ["S"] := by
  constructor
  · decide
  · decide

/-- C8 amended: a window that violates start ≤ end ≤ length of the raw tag
file is silently clamped: the aligner always returns a slice of length
min (end - start) (length - start) and never fails. -/
theorem alignSystem_clamps :
    ∀ (tags : List String) (i j : Nat),
      (alignSystem tags i j).length = min (j - i) (tags.length - i) := by
  intro tags i j
  simp [alignSystem]

/-- C8 amended witness: the clamped length on a concrete overrunning
window. -/
theorem alignSystem_clamps_inst :
    (alignSystem ["S"] 0 5).length = min (5 - 0) ((["S"] : List String).length - 0) :=
  alignSystem_clamps ["S"] 0 5

/-- C9: for a tag with zero true positives but some false positives and
some false negatives, precision and recall are both defined and equal to
zero, and the F1 division 2*p*r/(p+r) then divides by zero, so the scorer
fails at that tag instead of reporting an F1 of zero; a concrete corpus
exhibiting this makes the whole per-tag score fail. -/
theorem f1_fails_on_zero_tp :
    (∀ fp fn : Nat, 0 < fp → 0 < fn →
      qdiv ((0 : Nat) : ℚ) (((0 : Nat) : ℚ) + (fp : ℚ)) = some 0 ∧
      qdiv ((0 : Nat) : ℚ) (((0 : Nat) : ℚ) + (fn : ℚ)) = some 0 ∧
      scoreCounts 0 fp fn = none) ∧
    scoreTag "S" [(["S", "N"], ["N", "S"])] = none := by
  constructor
  · intro fp fn hfp hfn
    have hfp0 : (fp : ℚ) ≠ 0 := Nat.cast_ne_zero.mpr (Nat.pos_iff_ne_zero.mp hfp)
    have hfn0 : (fn : ℚ) ≠ 0 := Nat.cast_ne_zero.mpr (Nat.pos_iff_ne_zero.mp hfn)
    refine ⟨?_, ?_, scoreCounts_tp_zero fp fn⟩
    · simp [qdiv, hfp0]
    · simp [qdiv, hfn0]
  · have h1 : corpusTP "S" [(["S", "N"], ["N", "S"])] = 0 := by decide
    have h2 : corpusFP "S" [(["S", "N"], ["N", "S"])] = 1 := by decide
    have h3 : corpusFN "S" [(["S", "N"], ["N", "S"])] = 1 := by decide
    simp only [scoreTag, h1, h2, h3]
    exact scoreCounts_tp_zero 1 1

/-- C9 witness: the failing F1 division at the concrete counts 0, 1, 1. -/
theorem f1_fails_on_zero_tp_inst : scoreCounts 0 1 1 = none :=
  (f1_fails_on_zero_tp.1 1 1 (by decide) (by decide)).2.2

/-- C10: the evaluated movies are exactly the sheets of the workbook of
annotator 1 with the first sheet excluded, in that workbook order: the
movie list does not depend on the workbooks of annotators 2 and 3, a name
is evaluated exactly when it appears at some position past the first in
the workbook of annotator 1, the first sheet is never evaluated when sheet
names are distinct, and the remaining sheets are kept in order. -/
theorem evaluatedMovies_correct :
    (∀ k1 k2 k3 k2a k3a : List String,
      evaluatedMovies k1 k2 k3 = evaluatedMovies k1 k2a k3a) ∧
    (∀ (k1 k2 k3 : List String) (m : String),
      m ∈ evaluatedMovies k1 k2 k3 ↔ ∃ i : Nat, k1[i + 1]? = some m) ∧
    (∀ (x : String) (xs k2 k3 : List String), (x :: xs).Nodup →
      x ∉ evaluatedMovies (x :: xs) k2 k3) ∧
    (∀ (x : String) (xs k2 k3 : List String),
      evaluatedMovies (x :: xs) k2 k3 = xs) := by
  refine ⟨fun _ _ _ _ _ => rfl, ?_, ?_, fun _ _ _ _ => rfl⟩
  · intro k1 k2 k3 m
    simp [evaluatedMovies, List.mem_iff_getElem?, List.getElem?_drop, Nat.add_comm]
  · intro x xs k2 k3 h
    exact fun hmem => (List.nodup_cons.mp h).1 hmem

/-- C10 witness: the first sheet of a concrete workbook is not evaluated. -/
theorem evaluatedMovies_correct_inst :
    "a" ∉ evaluatedMovies ["a", "b"] [] [] :=
  evaluatedMovies_correct.2.2.1 "a" ["b"] [] [] (by decide)

end ScreenplayEval
